import Mathlib

/-!
# Age API: request-to-persistence pipeline

A shallow embedding of `internal/repository/repo.go`, `internal/service/service.go`
and `internal/handler/handler.go`, together with the parts of the Go standard
library (`time`), of `go-playground/validator` and of `encoding/json` that
these files rely on.

Conventions.
* Go `int` is 64 bits wide; `int32(x)` keeps the low 32 bits (two's complement).
* A `(T, error)` result is an `Except Error T` (the callers test `err` first).
* A pointer is an `Option` (`none` is `nil`); a slice is a `Slice`
  (`Slice.nil` is the nil slice, `Slice.mk []` the empty non-nil slice).
* The store is stateful: every operation maps a store state to a result and
  a new store state.
* `time.Now()` is an input: the clock reading of the request.
-/

namespace AgeApi

/-! ## Go primitives -/

/-- Go conversion `int32(x)` of a wider signed integer: the low 32 bits,
read in two's complement. -/
def toInt32 (x : Int) : Int := (x + 2147483648) % 4294967296 - 2147483648

/-- The values an `int32` can hold. -/
def fitsInt32 (x : Int) : Prop := -2147483648 ≤ x ∧ x < 2147483648

instance (x : Int) : Decidable (fitsInt32 x) := by
  unfold fitsInt32; exact inferInstance

/-- Go `error` value, observed through its `Error()` message. -/
structure Error where
  msg : String
  deriving DecidableEq

/-- Sentinel `sql.ErrNoRows` of `database/sql`. -/
def ErrNoRows : Error := ⟨"sql: no rows in result set"⟩

/-- Go pointer: `none` is `nil`. -/
abbrev Ptr (α : Type) := Option α

/-- Go slice, keeping the difference between the nil slice and a non-nil
slice of length zero. -/
inductive Slice (α : Type) where
  | nil : Slice α
  | mk (elems : List α) : Slice α
  deriving DecidableEq

namespace Slice

/-- Elements of a slice, as ranged over by `for _, u := range s`. -/
def toList {α : Type} : Slice α → List α
  | nil => []
  | mk l => l

/-- Go `len(s)`. -/
def len {α : Type} (s : Slice α) : Nat := s.toList.length

/-- Go `s == nil`. -/
def isNil {α : Type} : Slice α → Bool
  | nil => true
  | mk _ => false

/-- Go `append(s, x)`: the result is never nil. -/
def append {α : Type} (s : Slice α) (x : α) : Slice α := mk (s.toList ++ [x])

end Slice

/-! ## Package `time`: civil dates -/

/-- Go `time.isLeap`. -/
def isLeap (year : Int) : Bool :=
  year % 4 = 0 && (year % 100 ≠ 0 || year % 400 = 0)

/-- Go table `time.daysBefore`: days of a non-leap year before the end of
month `m` (`daysBefore 0 = 0`). -/
def daysBefore : Nat → Nat
  | 0 => 0
  | 1 => 31
  | 2 => 59
  | 3 => 90
  | 4 => 120
  | 5 => 151
  | 6 => 181
  | 7 => 212
  | 8 => 243
  | 9 => 273
  | 10 => 304
  | 11 => 334
  | _ => 365

/-- Go `time.daysIn`. -/
def daysIn (m : Nat) (year : Int) : Nat :=
  if m = 2 ∧ isLeap year = true then 29 else daysBefore m - daysBefore (m - 1)

/-- A `time.Time`, observed as the civil date it presents in its own
location. Every `time.Time` presents a valid date, which the two proofs record. -/
structure Time where
  year : Int
  month : Nat
  day : Nat
  month_ok : 1 ≤ month ∧ month ≤ 12
  day_ok : 1 ≤ day ∧ day ≤ daysIn month year
  deriving DecidableEq

namespace Time

/-- Go `t.Year()`. -/
def Year (t : Time) : Int := t.year

/-- Go `t.YearDay()`: 1 to 365, or 1 to 366 in a leap year. -/
def YearDay (t : Time) : Nat :=
  daysBefore (t.month - 1) + (if 2 < t.month ∧ isLeap t.year = true then 1 else 0) + t.day

/-- The zero `time.Time`: January 1 of year 1. -/
def zero : Time := ⟨1, 1, 1, by decide, by decide⟩

/-- Go `!t.After(u)` on dates: `t` is not later than `u`. -/
def le (t u : Time) : Prop :=
  t.year < u.year ∨ (t.year = u.year ∧ (t.month < u.month ∨ (t.month = u.month ∧ t.day ≤ u.day)))

instance (t u : Time) : Decidable (le t u) := by
  unfold le; exact inferInstance

end Time

/-! ## `service.calculateAge` -/

/-- Source `calculateAge` of `service.go`, with the reading of `time.Now()` as
the argument `now`. -/
def calculateAge (now dob : Time) : Int :=
  let age := now.Year - dob.Year
  let age := if now.YearDay < dob.YearDay then age - 1 else age
  toInt32 age

/-- Age in whole years as the comment in `calculateAge` words it: one less
than the year difference exactly when the birthday has not happened yet in the
current year, comparing month and day. -/
def wholeYears (now dob : Time) : Int :=
  let age := now.year - dob.year
  if now.month < dob.month ∨ (now.month = dob.month ∧ now.day < dob.day) then age - 1 else age

/-- Days of the year before the first day of month `m`. -/
def startOf (m : Nat) (leap : Bool) : Nat :=
  daysBefore (m - 1) + (if 2 < m ∧ leap = true then 1 else 0)

/-! ## Package `time`: the layout `2006-01-02` -/

/-- Go `time.isDigit` on one byte. -/
def isDigit (c : Char) : Bool := 48 ≤ c.toNat && c.toNat ≤ 57

/-- Value of a decimal digit, Go `int(c - '0')`. -/
def digitVal (c : Char) : Nat := c.toNat - 48

/-- Decimal digit as a byte, Go `byte('0' + d)`. -/
def digitChar (d : Nat) : Char := Char.ofNat (48 + d)

/-- Go `time.Parse("2006-01-02", value)`; `none` stands for a non-nil error
(no caller in this program looks at the error value itself). The layout asks
for four year digits, `-`, two month digits, `-`, two day digits and nothing
after them, then checks the month range and the day against `daysIn`. -/
def Parse (value : String) : Option Time :=
  match value.data with
  | [y1, y2, y3, y4, s1, m1, m2, s2, d1, d2] =>
    if isDigit y1 && isDigit y2 && isDigit y3 && isDigit y4 && s1 = '-'
        && isDigit m1 && isDigit m2 && s2 = '-' && isDigit d1 && isDigit d2 then
      let year : Int :=
        ((digitVal y1 * 1000 + digitVal y2 * 100 + digitVal y3 * 10 + digitVal y4 : Nat) : Int)
      let month := digitVal m1 * 10 + digitVal m2
      let day := digitVal d1 * 10 + digitVal d2
      if hm : 1 ≤ month ∧ month ≤ 12 then
        if hd : 1 ≤ day ∧ day ≤ daysIn month year then some ⟨year, month, day, hm, hd⟩
        else none
      else none
    else none
  | _ => none

/-- Go `time.appendInt`: decimal form of `x`, padded with leading zeros to
`width`, with the two fast paths for widths 2 and 4. -/
def appendInt (x : Int) (width : Nat) : List Char :=
  let sign : List Char := if x < 0 then ['-'] else []
  let u := x.natAbs
  if width = 2 ∧ u < 100 then
    sign ++ [digitChar (u / 10), digitChar (u % 10)]
  else if width = 4 ∧ u < 10000 then
    sign ++ [digitChar (u / 1000), digitChar (u / 100 % 10), digitChar (u / 10 % 10),
      digitChar (u % 10)]
  else
    let ds := Nat.toDigits 10 u
    sign ++ List.replicate (width - ds.length) '0' ++ ds

/-- Go `t.Format("2006-01-02")`. -/
def Time.Format (t : Time) : String :=
  ⟨appendInt t.year 4 ++ ['-'] ++ appendInt t.month 2 ++ ['-'] ++ appendInt t.day 2⟩

/-! ## `encoding/json` values and HTTP responses -/

/-- A JSON document. Objects keep their members in the order of encoding. -/
inductive Json where
  | null : Json
  | num (n : Int) : Json
  | str (s : String) : Json
  | arr (xs : List Json) : Json
  | obj (kvs : List (String × Json)) : Json

/-- What a handler leaves in the fiber context: status and body. -/
structure Response where
  status : Nat
  body : Option Json

/-- Go `c.Status(status).JSON(v)`. -/
def Response.json (status : Nat) (v : Json) : Response := ⟨status, some v⟩

/-- Go `c.SendStatus(status)`: a bare status, no JSON body. -/
def Response.sendStatus (status : Nat) : Response := ⟨status, none⟩

/-- Encoding of `fiber.Map{"error": msg}`. -/
def errorBody (msg : String) : Json := Json.obj [("error", Json.str msg)]

/-- Encoding of `fiber.Map{"error": msg, "details": details}`; `encoding/json`
writes map keys in sorted order. -/
def errorDetailsBody (msg details : String) : Json :=
  Json.obj [("details", Json.str details), ("error", Json.str msg)]

/-- How a handler run ends: it sent a response, or it dereferenced a nil
pointer. -/
inductive Outcome where
  | sent (r : Response) : Outcome
  | nilDeref : Outcome

/-! ## Package `generated` (sqlc) -/

/-- Modelled from the spec: record type `generated.User`, whose declaration
is not among the sources; identifier, name and date of birth, as `service.go`
reads them. -/
structure User where
  ID : Int
  Name : String
  Dob : Time
  deriving DecidableEq

/-- Modelled from the spec: `generated.CreateUserParams`, declaration not
among the sources; fields as `service.go` fills them. -/
structure CreateUserParams where
  Name : String
  Dob : Time
  deriving DecidableEq

/-- Modelled from the spec: `generated.UpdateUserParams`, declaration not
among the sources; fields as `service.go` fills them. -/
structure UpdateUserParams where
  ID : Int
  Name : String
  Dob : Time
  deriving DecidableEq

/-- Modelled from the spec: the five operations of `generated.Queries`, the
opaque persistence store of the spec. The query code is not among the
sources, so each operation is a parameter: any function from its arguments
and the store state to a result and a new store state. -/
structure Queries (σ : Type) where
  CreateUser : CreateUserParams → σ → Except Error User × σ
  DeleteUser : Int → σ → Option Error × σ
  GetUser : Int → σ → Except Error User × σ
  ListUsers : σ → Except Error (Slice User) × σ
  UpdateUser : UpdateUserParams → σ → Except Error User × σ

/-! ## `repository/repo.go` -/

/-- Interface `repository.UserRepo`. -/
structure UserRepo (σ : Type) where
  CreateUser : CreateUserParams → σ → Except Error User × σ
  DeleteUser : Int → σ → Option Error × σ
  GetUser : Int → σ → Except Error (Ptr User) × σ
  ListUsers : σ → Except Error (Slice User) × σ
  UpdateUser : UpdateUserParams → σ → Except Error User × σ

/-- Struct `repository.SqlRepo` (the `db` handle plays no part in the
methods). -/
structure SqlRepo (σ : Type) where
  queries : Queries σ

namespace SqlRepo

variable {σ : Type}

/-- Method `SqlRepo.CreateUser`. -/
def CreateUser (s : SqlRepo σ) (user : CreateUserParams) (st : σ) : Except Error User × σ :=
  s.queries.CreateUser user st

/-- Method `SqlRepo.DeleteUser`. -/
def DeleteUser (s : SqlRepo σ) (id : Int) (st : σ) : Option Error × σ :=
  s.queries.DeleteUser id st

/-- Method `SqlRepo.GetUser`: an error of the query, `sql.ErrNoRows` included,
is returned as it is; otherwise the address of the record. -/
def GetUser (s : SqlRepo σ) (id : Int) (st : σ) : Except Error (Ptr User) × σ :=
  match s.queries.GetUser id st with
  | (.error err, st1) => (.error err, st1)
  | (.ok user, st1) => (.ok (some user), st1)

/-- Method `SqlRepo.ListUsers`. -/
def ListUsers (s : SqlRepo σ) (st : σ) : Except Error (Slice User) × σ :=
  s.queries.ListUsers st

/-- Method `SqlRepo.UpdateUser`. -/
def UpdateUser (s : SqlRepo σ) (arg : UpdateUserParams) (st : σ) : Except Error User × σ :=
  s.queries.UpdateUser arg st

end SqlRepo

/-- Constructor `repository.New`. -/
def repository.New {σ : Type} (q : Queries σ) : UserRepo σ :=
  let s : SqlRepo σ := ⟨q⟩
  { CreateUser := s.CreateUser
    DeleteUser := s.DeleteUser
    GetUser := s.GetUser
    ListUsers := s.ListUsers
    UpdateUser := s.UpdateUser }

/-! ## `service/service.go` -/

/-- DTO `service.CreateUserRequest`. -/
structure CreateUserRequest where
  Name : String
  Dob : Time
  deriving DecidableEq

/-- DTO `service.UpdateUserRequest`. -/
structure UpdateUserRequest where
  ID : Int
  Name : String
  Dob : Time
  deriving DecidableEq

/-- DTO `service.UserResponse`. -/
structure UserResponse where
  ID : Int
  Name : String
  Dob : String
  Age : Int
  deriving DecidableEq

/-- JSON encoding of a `UserResponse` by its struct tags: `age` carries
`omitempty`, so it is left out when it is 0. -/
def UserResponse.toJson (u : UserResponse) : Json :=
  Json.obj ([("id", Json.num u.ID), ("name", Json.str u.Name), ("dob", Json.str u.Dob)]
    ++ (if u.Age = 0 then [] else [("age", Json.num u.Age)]))

/-- JSON encoding of a `*UserResponse`: a nil pointer is `null`. -/
def encodePtr : Ptr UserResponse → Json
  | none => Json.null
  | some u => u.toJson

/-- JSON encoding of a `[]*UserResponse`: a nil slice is `null`, any other
slice an array of its elements in order. -/
def encodeSlice : Slice (Ptr UserResponse) → Json
  | Slice.nil => Json.null
  | Slice.mk l => Json.arr (l.map encodePtr)

/-- Interface `service.UserService`. -/
structure UserService (σ : Type) where
  CreateUser : CreateUserRequest → σ → Except Error (Ptr UserResponse) × σ
  DeleteUser : Int → σ → Option Error × σ
  GetUser : Int → σ → Except Error (Ptr UserResponse) × σ
  ListUsers : σ → Except Error (Slice (Ptr UserResponse)) × σ
  UpdateUser : UpdateUserRequest → σ → Except Error (Ptr UserResponse) × σ

/-- Struct `service.UserServiceStruct`; `now` is what `time.Now()` reads
while the request is served. -/
structure UserServiceStruct (σ : Type) where
  r : UserRepo σ
  now : Time

namespace UserServiceStruct

variable {σ : Type}

/-- Method `UserServiceStruct.CreateUser`: `Age` is left at its zero value. -/
def CreateUser (s : UserServiceStruct σ) (req : CreateUserRequest) (st : σ) :
    Except Error (Ptr UserResponse) × σ :=
  let arg : CreateUserParams := { Name := req.Name, Dob := req.Dob }
  match s.r.CreateUser arg st with
  | (.error err, st1) => (.error err, st1)
  | (.ok user, st1) =>
    (.ok (some { ID := user.ID, Name := user.Name, Dob := user.Dob.Format, Age := 0 }), st1)

/-- Method `UserServiceStruct.DeleteUser`. -/
def DeleteUser (s : UserServiceStruct σ) (id : Int) (st : σ) : Option Error × σ :=
  s.r.DeleteUser id st

/-- Method `UserServiceStruct.GetUser`. -/
def GetUser (s : UserServiceStruct σ) (id : Int) (st : σ) :
    Except Error (Ptr UserResponse) × σ :=
  match s.r.GetUser id st with
  | (.error err, st1) => (.error err, st1)
  | (.ok none, st1) => (.ok none, st1)
  | (.ok (some user), st1) =>
    (.ok (some { ID := user.ID, Name := user.Name, Dob := user.Dob.Format,
                 Age := calculateAge s.now user.Dob }), st1)

/-- Method `UserServiceStruct.ListUsers`: `response` starts as the nil slice
and grows by one `append` per record. -/
def ListUsers (s : UserServiceStruct σ) (st : σ) :
    Except Error (Slice (Ptr UserResponse)) × σ :=
  match s.r.ListUsers st with
  | (.error err, st1) => (.error err, st1)
  | (.ok users, st1) =>
    let response : Slice (Ptr UserResponse) :=
      users.toList.foldl
        (fun response u => response.append
          (some { ID := u.ID, Name := u.Name, Dob := u.Dob.Format,
                  Age := calculateAge s.now u.Dob }))
        Slice.nil
    (.ok response, st1)

/-- Method `UserServiceStruct.UpdateUser`. -/
def UpdateUser (s : UserServiceStruct σ) (req : UpdateUserRequest) (st : σ) :
    Except Error (Ptr UserResponse) × σ :=
  let arg : UpdateUserParams := { ID := req.ID, Name := req.Name, Dob := req.Dob }
  match s.r.UpdateUser arg st with
  | (.error err, st1) => (.error err, st1)
  | (.ok user, st1) =>
    (.ok (some { ID := user.ID, Name := user.Name, Dob := user.Dob.Format,
                 Age := calculateAge s.now user.Dob }), st1)

end UserServiceStruct

/-- Constructor `service.New`, with the clock reading as a second argument. -/
def service.New {σ : Type} (repo : UserRepo σ) (now : Time) : UserService σ :=
  let s : UserServiceStruct σ := ⟨repo, now⟩
  { CreateUser := s.CreateUser
    DeleteUser := s.DeleteUser
    GetUser := s.GetUser
    ListUsers := s.ListUsers
    UpdateUser := s.UpdateUser }

/-! ## Package `validator` -/

/-- The local `Request` struct of `CreateUser` and of `UpdateUser`, as
`c.BodyParser` fills it; an absent field is the empty string. -/
structure Request where
  Name : String
  Dob : String
  deriving DecidableEq

/-- One failed field of `validator.ValidationErrors`. -/
structure FieldError where
  ns : String
  field : String
  tag : String
  deriving DecidableEq

/-- Message of one field error, as `validator` formats it. -/
def FieldError.Error (fe : FieldError) : String :=
  "Key: \x27" ++ fe.ns ++ "\x27 Error:Field validation for \x27" ++ fe.field
    ++ "\x27 failed on the \x27" ++ fe.tag ++ "\x27 tag"

/-- Tags `required,min=3` on `Name`: `required` fails on the empty string,
`min=3` on fewer than 3 characters (runes); the first failing tag is
reported. -/
def validateName (name : String) : Option FieldError :=
  if name = "" then some ⟨"Request.Name", "Name", "required"⟩
  else if name.length < 3 then some ⟨"Request.Name", "Name", "min"⟩
  else none

/-- Tags `required,datetime=2006-01-02` on `Dob`: `datetime` passes exactly
when `time.Parse` with that layout returns no error. -/
def validateDob (dob : String) : Option FieldError :=
  if dob = "" then some ⟨"Request.Dob", "Dob", "required"⟩
  else if (Parse dob).isSome then none
  else some ⟨"Request.Dob", "Dob", "datetime"⟩

/-- Go `validate.Struct(&req)` for the tags of `Request`: nil when every field
passes, otherwise the `ValidationErrors` of the failing fields, whose message
lists one line per field. -/
def Validate.Struct (req : Request) : Option Error :=
  let errs := (validateName req.Name).toList ++ (validateDob req.Dob).toList
  if errs = [] then none
  else some ⟨String.intercalate "\n" (errs.map FieldError.Error)⟩

/-! ## `handler/handler.go` -/

/-- The parts of a `fiber.Ctx` the handlers read: the result of
`c.ParamsInt("id")` (a Go `int`) and the result of `c.BodyParser(&req)`. -/
structure Ctx where
  paramsInt : Except Error Int
  body : Except Error Request

/-- Struct `handler.UserHandler` (the logger plays no part in the
responses). -/
structure UserHandler (σ : Type) where
  s : UserService σ
  validate : Request → Option Error

namespace UserHandler

variable {σ : Type}

/-- Handler `UserHandler.CreateUser`. -/
def CreateUser (h : UserHandler σ) (c : Ctx) (st : σ) : Outcome × σ :=
  match c.body with
  | .error _ => (.sent (Response.json 400 (errorBody "Invalid request body")), st)
  | .ok req =>
    match h.validate req with
    | some err =>
      (.sent (Response.json 400 (errorDetailsBody "Validation failed" err.msg)), st)
    | none =>
      let parsedDob := (Parse req.Dob).getD Time.zero
      let svcReq : CreateUserRequest := { Name := req.Name, Dob := parsedDob }
      match h.s.CreateUser svcReq st with
      | (.error err, st1) => (.sent (Response.json 500 (errorBody err.msg)), st1)
      | (.ok none, st1) => (.nilDeref, st1)
      | (.ok (some res), st1) => (.sent (Response.json 201 res.toJson), st1)

/-- Handler `UserHandler.GetUser`. -/
def GetUser (h : UserHandler σ) (c : Ctx) (st : σ) : Outcome × σ :=
  match c.paramsInt with
  | .error _ => (.sent (Response.json 400 (errorBody "Invalid User ID")), st)
  | .ok id =>
    match h.s.GetUser (toInt32 id) st with
    | (.error err, st1) => (.sent (Response.json 500 (errorBody err.msg)), st1)
    | (.ok none, st1) => (.sent (Response.json 404 (errorBody "User not found")), st1)
    | (.ok (some user), st1) => (.sent (Response.json 200 user.toJson), st1)

/-- Handler `UserHandler.ListUsers`. -/
def ListUsers (h : UserHandler σ) (st : σ) : Outcome × σ :=
  match h.s.ListUsers st with
  | (.error err, st1) => (.sent (Response.json 500 (errorBody err.msg)), st1)
  | (.ok users, st1) =>
    if users.isNil then (.sent (Response.json 200 (Json.arr [])), st1)
    else (.sent (Response.json 200 (encodeSlice users)), st1)

/-- Handler `UserHandler.UpdateUser`. -/
def UpdateUser (h : UserHandler σ) (c : Ctx) (st : σ) : Outcome × σ :=
  match c.paramsInt with
  | .error _ => (.sent (Response.json 400 (errorBody "Invalid User ID")), st)
  | .ok id =>
    match c.body with
    | .error _ => (.sent (Response.json 400 (errorBody "Invalid body")), st)
    | .ok req =>
      match h.validate req with
      | some err =>
        (.sent (Response.json 400 (errorDetailsBody "Validation failed" err.msg)), st)
      | none =>
        let parsedDob := (Parse req.Dob).getD Time.zero
        let svcReq : UpdateUserRequest :=
          { ID := toInt32 id, Name := req.Name, Dob := parsedDob }
        match h.s.UpdateUser svcReq st with
        | (.error err, st1) => (.sent (Response.json 500 (errorBody err.msg)), st1)
        | (.ok res, st1) => (.sent (Response.json 200 (encodePtr res)), st1)

/-- Handler `UserHandler.DeleteUser`. -/
def DeleteUser (h : UserHandler σ) (c : Ctx) (st : σ) : Outcome × σ :=
  match c.paramsInt with
  | .error _ => (.sent (Response.json 400 (errorBody "Invalid User ID")), st)
  | .ok id =>
    match h.s.DeleteUser (toInt32 id) st with
    | (some err, st1) => (.sent (Response.json 500 (errorBody err.msg)), st1)
    | (none, st1) => (.sent (Response.sendStatus 204), st1)

end UserHandler

/-- Constructor `handler.New` (without the logger). -/
def handler.New {σ : Type} (svc : UserService σ) (v : Request → Option Error) :
    UserHandler σ :=
  { s := svc, validate := v }

/-- The program as wired: handler over service over SQL repository over the
queries `q`, with the validator of the struct tags and the clock reading
`now`. -/
def app {σ : Type} (q : Queries σ) (now : Time) : UserHandler σ :=
  handler.New (service.New (repository.New q) now) Validate.Struct

/-! ## Words of the specification and fixtures -/

/-- A string is a calendar date written as `YYYY-MM-DD` when it is the
four-digit year, two-digit month and two-digit day of some valid date with a
year from 0 to 9999. -/
def isCalendarDate (s : String) : Prop :=
  ∃ t : Time, 0 ≤ t.year ∧ t.year ≤ 9999 ∧ t.Format = s

/-- The date of birth 2000-05-15 of the scenarios. -/
def dobAlice : Time := ⟨2000, 5, 15, by decide, by decide⟩

/-- A current date 2147483648 years after `dobAlice`. -/
def farFuture : Time := ⟨2147485648, 5, 15, by decide, by decide⟩

/-- An in-memory table standing in for the database in concrete
evaluations: identifiers are one more than the largest in use, a missing row
is `sql.ErrNoRows`, and an empty listing is the nil slice. -/
def memQueries : Queries (List User) where
  CreateUser := fun arg st =>
    let user : User := ⟨(st.map (fun u => u.ID)).foldl max 0 + 1, arg.Name, arg.Dob⟩
    (.ok user, st ++ [user])
  DeleteUser := fun id st => (none, st.filter (fun u => u.ID ≠ id))
  GetUser := fun id st =>
    match st.find? (fun u => u.ID = id) with
    | some u => (.ok u, st)
    | none => (.error ErrNoRows, st)
  ListUsers := fun st => (.ok (if st = [] then Slice.nil else Slice.mk st), st)
  UpdateUser := fun arg st =>
    match st.find? (fun u => u.ID = arg.ID) with
    | some _ =>
      (.ok ⟨arg.ID, arg.Name, arg.Dob⟩,
        st.map (fun u => if u.ID = arg.ID then ⟨arg.ID, arg.Name, arg.Dob⟩ else u))
    | none => (.error ErrNoRows, st)

/-- A store whose every operation fails with the same error. -/
def failingQueries (e : Error) : Queries Unit where
  CreateUser := fun _ st => (.error e, st)
  DeleteUser := fun _ st => (some e, st)
  GetUser := fun _ st => (.error e, st)
  ListUsers := fun st => (.error e, st)
  UpdateUser := fun _ st => (.error e, st)

/-- A service that counts its calls in the state and answers nothing. -/
def countingService : UserService Nat where
  CreateUser := fun _ n => (.ok none, n + 1)
  DeleteUser := fun _ n => (none, n + 1)
  GetUser := fun _ n => (.ok none, n + 1)
  ListUsers := fun n => (.ok Slice.nil, n + 1)
  UpdateUser := fun _ n => (.ok none, n + 1)

/-- The record of the scenarios: Alice, born 2000-05-15, with identifier 1. -/
def alice : User := ⟨1, "Alice", dobAlice⟩

/-- The current date 2024-05-16 of the scenarios. -/
def today : Time := ⟨2024, 5, 16, by decide, by decide⟩

/-- The service's response DTO of a record, with the age as of `now`. -/
def toResponse (now : Time) (u : User) : UserResponse :=
  { ID := u.ID, Name := u.Name, Dob := u.Dob.Format, Age := calculateAge now u.Dob }

/-! ## Lemmas on machine integers and dates -/

theorem toInt32_of_fits (x : Int) (h : fitsInt32 x) : toInt32 x = x := by
  unfold fitsInt32 at h
  unfold toInt32
  omega

theorem startOf_succ : ∀ leap : Bool, ∀ m < 13, 1 ≤ m →
    startOf m leap + (if m = 2 ∧ leap = true then 29 else daysBefore m - daysBefore (m - 1))
      = startOf (m + 1) leap := by
  decide

theorem startOf_mono : ∀ leap : Bool, ∀ m < 14, ∀ n < 14, m ≤ n →
    startOf m leap ≤ startOf n leap := by
  decide

theorem yearDay_eq (t : Time) : t.YearDay = startOf t.month (isLeap t.year) + t.day := rfl

theorem yearDay_le_of_le (t u : Time) (hy : t.year = u.year)
    (h : t.month < u.month ∨ (t.month = u.month ∧ t.day ≤ u.day)) :
    t.YearDay ≤ u.YearDay := by
  rw [yearDay_eq, yearDay_eq, hy]
  rcases h with h | ⟨hm, hd⟩
  · have h1 := startOf_succ (isLeap u.year) t.month (by have := t.month_ok; omega) t.month_ok.1
    have h2 := startOf_mono (isLeap u.year) (t.month + 1) (by have := t.month_ok; omega)
      u.month (by have := u.month_ok; omega) h
    have h3 := t.day_ok.2
    unfold daysIn at h3
    rw [hy] at h3
    have h4 := u.day_ok.1
    omega
  · rw [hm]
    omega

/-! ## Lemmas on the layout `2006-01-02` -/

theorem digitChar_digitVal (c : Char) (h : isDigit c = true) : digitChar (digitVal c) = c := by
  simp only [isDigit, Bool.and_eq_true, decide_eq_true_eq] at h
  unfold digitChar digitVal
  rw [Nat.add_sub_cancel' h.1, Char.ofNat_toNat]

theorem digitVal_le (c : Char) (h : isDigit c = true) : digitVal c ≤ 9 := by
  simp only [isDigit, Bool.and_eq_true, decide_eq_true_eq] at h
  unfold digitVal
  omega

theorem appendInt_two (a b : Char) (ha : isDigit a = true) (hb : isDigit b = true) :
    appendInt ((digitVal a * 10 + digitVal b : Nat) : Int) 2 = [a, b] := by
  have h1 := digitVal_le a ha
  have h2 := digitVal_le b hb
  have e1 : (digitVal a * 10 + digitVal b) / 10 = digitVal a := by omega
  have e2 : (digitVal a * 10 + digitVal b) % 10 = digitVal b := by omega
  have hlt : digitVal a * 10 + digitVal b < 100 := by omega
  have hneg : ¬ (((digitVal a * 10 + digitVal b : Nat) : Int) < 0) := by omega
  unfold appendInt
  simp only [Int.natAbs_cast, hneg, hlt, if_false, and_self, if_true, List.nil_append, e1, e2,
    digitChar_digitVal a ha, digitChar_digitVal b hb]

theorem appendInt_four (a b c d : Char) (ha : isDigit a = true) (hb : isDigit b = true)
    (hc : isDigit c = true) (hd : isDigit d = true) :
    appendInt ((digitVal a * 1000 + digitVal b * 100 + digitVal c * 10 + digitVal d : Nat) : Int) 4
      = [a, b, c, d] := by
  have h1 := digitVal_le a ha
  have h2 := digitVal_le b hb
  have h3 := digitVal_le c hc
  have h4 := digitVal_le d hd
  generalize hu : digitVal a * 1000 + digitVal b * 100 + digitVal c * 10 + digitVal d = u
  have e1 : u / 1000 = digitVal a := by omega
  have e2 : u / 100 % 10 = digitVal b := by omega
  have e3 : u / 10 % 10 = digitVal c := by omega
  have e4 : u % 10 = digitVal d := by omega
  have hlt : u < 10000 := by omega
  have hneg : ¬ ((u : Int) < 0) := by omega
  have h42 : ¬ ((4 : Nat) = 2 ∧ u < 100) := by omega
  unfold appendInt
  simp only [Int.natAbs_cast, hneg, hlt, h42, if_false, and_self, if_true, List.nil_append,
    e1, e2, e3, e4, digitChar_digitVal a ha, digitChar_digitVal b hb, digitChar_digitVal c hc,
    digitChar_digitVal d hd]

/-- What `Parse` accepts, `Format` writes back unchanged, and the year it
reads lies between 0 and 9999. -/
theorem format_of_parse (s : String) (t : Time) (h : Parse s = some t) :
    t.Format = s ∧ 0 ≤ t.year ∧ t.year ≤ 9999 := by
  unfold Parse at h
  split at h
  · rename_i y1 y2 y3 y4 s1 m1 m2 s2 d1 d2 hdata
    split at h
    · rename_i hchk
      simp only [Bool.and_eq_true, decide_eq_true_eq] at hchk
      obtain ⟨⟨⟨⟨⟨⟨⟨⟨⟨hy1, hy2⟩, hy3⟩, hy4⟩, hs1⟩, hm1⟩, hm2⟩, hs2⟩, hd1⟩, hd2⟩ := hchk
      simp only at h
      split at h
      · split at h
        · injection h with h
          subst h
          have b1 := digitVal_le y1 hy1
          have b2 := digitVal_le y2 hy2
          have b3 := digitVal_le y3 hy3
          have b4 := digitVal_le y4 hy4
          refine ⟨?_, ?_, ?_⟩
          · apply String.ext
            rw [hdata]
            simp only [Time.Format]
            rw [appendInt_four y1 y2 y3 y4 hy1 hy2 hy3 hy4, appendInt_two m1 m2 hm1 hm2,
              appendInt_two d1 d2 hd1 hd2, hs1, hs2]
            rfl
          · simp only
            omega
          · simp only
            omega
        · exact absurd h (by simp)
      · exact absurd h (by simp)
    · exact absurd h (by simp)
  · exact absurd h (by simp)

theorem digitChar_props : ∀ d < 10, isDigit (digitChar d) = true ∧ digitVal (digitChar d) = d := by
  decide

theorem parse_two (a b c d e f g h i j : Char) :
    Parse ⟨[a, b, c, d, e, f, g, h, i, j]⟩
      = (if isDigit a && isDigit b && isDigit c && isDigit d && e = '-'
            && isDigit f && isDigit g && h = '-' && isDigit i && isDigit j then
          if hm : 1 ≤ digitVal f * 10 + digitVal g ∧ digitVal f * 10 + digitVal g ≤ 12 then
            if hd : 1 ≤ digitVal i * 10 + digitVal j ∧ digitVal i * 10 + digitVal j
                ≤ daysIn (digitVal f * 10 + digitVal g)
                    ((digitVal a * 1000 + digitVal b * 100 + digitVal c * 10 + digitVal d : Nat) : Int)
            then some ⟨((digitVal a * 1000 + digitVal b * 100 + digitVal c * 10 + digitVal d : Nat) : Int),
                digitVal f * 10 + digitVal g, digitVal i * 10 + digitVal j, hm, hd⟩
            else none
          else none
        else none) := rfl

/-- What `Format` writes for a date with a year from 0 to 9999, `Parse` reads
back as that date. -/
theorem parse_of_format (t : Time) (h0 : 0 ≤ t.year) (h1 : t.year ≤ 9999) :
    Parse t.Format = some t := by
  obtain ⟨y, m, d, hm, hd⟩ := t
  simp only at h0 h1
  obtain ⟨u, rfl⟩ := Int.eq_ofNat_of_zero_le h0
  have hu : u < 10000 := by omega
  have hd31 : d ≤ 31 := by
    have := hd.2
    unfold daysIn at this
    split at this
    · omega
    · obtain ⟨hm1, hm12⟩ := hm
      interval_cases m <;> simp [daysBefore] at this <;> omega
  have hneg : ¬ ((u : Int) < 0) := by omega
  have hnegm : ¬ ((m : Int) < 0) := by omega
  have hnegd : ¬ ((d : Int) < 0) := by omega
  have hm100 : m < 100 := by omega
  have hd100 : d < 100 := by omega
  have h42 : ¬ ((4 : Nat) = 2 ∧ u < 100) := by omega
  have e : Time.Format ⟨(u : Int), m, d, hm, hd⟩
      = ⟨[digitChar (u / 1000), digitChar (u / 100 % 10), digitChar (u / 10 % 10),
          digitChar (u % 10), '-', digitChar (m / 10), digitChar (m % 10), '-',
          digitChar (d / 10), digitChar (d % 10)]⟩ := by
    simp only [Time.Format, appendInt, Int.ofNat_eq_coe, Int.natAbs_cast, hneg, hnegm, hnegd, hu,
      hm100, hd100, h42, if_false, and_self, if_true, List.nil_append, List.cons_append,
      List.append_nil]
  rw [e, parse_two]
  obtain ⟨a1, a2⟩ := digitChar_props (u / 1000) (by omega)
  obtain ⟨b1, b2⟩ := digitChar_props (u / 100 % 10) (by omega)
  obtain ⟨c1, c2⟩ := digitChar_props (u / 10 % 10) (by omega)
  obtain ⟨d1, d2⟩ := digitChar_props (u % 10) (by omega)
  obtain ⟨f1, f2⟩ := digitChar_props (m / 10) (by omega)
  obtain ⟨g1, g2⟩ := digitChar_props (m % 10) (by omega)
  obtain ⟨i1, i2⟩ := digitChar_props (d / 10) (by omega)
  obtain ⟨j1, j2⟩ := digitChar_props (d % 10) (by omega)
  have ey : u / 1000 * 1000 + u / 100 % 10 * 100 + u / 10 % 10 * 10 + u % 10 = u := by omega
  have em : m / 10 * 10 + m % 10 = m := by omega
  have ed : d / 10 * 10 + d % 10 = d := by omega
  simp only [a1, b1, c1, d1, f1, g1, i1, j1, a2, b2, c2, d2, f2, g2, i2, j2, ey, em, ed,
    Bool.and_self, decide_True, if_true, hm, hd, dif_pos, and_self, Int.ofNat_eq_coe]

theorem isCalendarDate_iff (s : String) : isCalendarDate s ↔ (Parse s).isSome = true := by
  constructor
  · rintro ⟨t, h0, h1, rfl⟩
    rw [parse_of_format t h0 h1]
    rfl
  · intro h
    cases hp : Parse s with
    | none => rw [hp] at h; exact absurd h (by simp)
    | some t =>
      have := format_of_parse s t hp
      exact ⟨t, this.2.1, this.2.2, this.1⟩

theorem not_parse_of_not_calendarDate (s : String) (h : ¬ isCalendarDate s) : Parse s = none := by
  cases hp : Parse s with
  | none => rfl
  | some t =>
    have := format_of_parse s t hp
    exact absurd ⟨t, this.2.1, this.2.2, this.1⟩ h

/-! ## The age computation -/

/-- C1 (counterexample): for the date of birth 2000-05-15 and the same day of
year 2147485648 the year difference is 2147483648 and nothing is to be
subtracted, yet `calculateAge` returns -2147483648: the `int32` conversion
wraps. -/
theorem calculateAge_wraps :
    calculateAge farFuture dobAlice = -2147483648
      ∧ calculateAge farFuture dobAlice
          ≠ (if farFuture.YearDay < dobAlice.YearDay then farFuture.Year - dobAlice.Year - 1
             else farFuture.Year - dobAlice.Year) := by
  constructor <;> decide

/-- C1 (amended): for every date of birth and every current date,
`calculateAge` returns the current year minus the birth year, less 1 exactly
when the current day-of-year is strictly less than the birth day-of-year,
provided that number fits the `int32` result type. For dob 2000-05-15 it
returns 23 on 2024-05-14 and 24 on 2024-05-16, and it returns 0 when the date
of birth is the current date. -/
theorem calculateAge_spec (now dob : Time)
    (h : fitsInt32 (if now.YearDay < dob.YearDay then now.Year - dob.Year - 1
                    else now.Year - dob.Year)) :
    calculateAge now dob
        = (if now.YearDay < dob.YearDay then now.Year - dob.Year - 1 else now.Year - dob.Year)
      ∧ calculateAge ⟨2024, 5, 14, by decide, by decide⟩ ⟨2000, 5, 15, by decide, by decide⟩ = 23
      ∧ calculateAge ⟨2024, 5, 16, by decide, by decide⟩ ⟨2000, 5, 15, by decide, by decide⟩ = 24
      ∧ calculateAge dob dob = 0 := by
  refine ⟨?_, by decide, by decide, ?_⟩
  · unfold calculateAge
    exact toInt32_of_fits _ h
  · unfold calculateAge
    simp [toInt32]

theorem calculateAge_spec_witness :
    calculateAge ⟨2024, 1, 10, by decide, by decide⟩ ⟨1999, 12, 31, by decide, by decide⟩ = 24 :=
  (calculateAge_spec ⟨2024, 1, 10, by decide, by decide⟩ ⟨1999, 12, 31, by decide, by decide⟩
    (by decide)).1.trans (by decide)

/-- C2 (code at the failing input): for dob 2000-03-01 and the current date
2023-03-01 the birthday has happened (the current month and day are not
earlier than the birth month and day) and the age in whole years is 23, yet
`calculateAge` subtracts 1 and returns 22, because day 60 of 2023 is compared
with day 61 of the leap year 2000. For dob 2023-03-01 and the current date
2024-02-29 the birthday has not happened, yet nothing is subtracted. -/
theorem calculateAge_leap_mismatch :
    Time.le ⟨2000, 3, 1, by decide, by decide⟩ ⟨2023, 3, 1, by decide, by decide⟩
      ∧ Time.le ⟨2023, 3, 1, by decide, by decide⟩ ⟨2024, 2, 29, by decide, by decide⟩
      ∧ calculateAge ⟨2023, 3, 1, by decide, by decide⟩ ⟨2000, 3, 1, by decide, by decide⟩ = 22
      ∧ wholeYears ⟨2023, 3, 1, by decide, by decide⟩ ⟨2000, 3, 1, by decide, by decide⟩ = 23
      ∧ calculateAge ⟨2024, 2, 29, by decide, by decide⟩ ⟨2023, 3, 1, by decide, by decide⟩ = 1
      ∧ wholeYears ⟨2024, 2, 29, by decide, by decide⟩ ⟨2023, 3, 1, by decide, by decide⟩ = 0 := by
  refine ⟨by decide, by decide, by decide, by decide, by decide, by decide⟩

/-- C10 (counterexample): the date of birth 2000-01-01 is not later than
January 1 of year 2147485648, and `calculateAge` returns a negative number
there. -/
theorem calculateAge_negative :
    Time.le ⟨2000, 1, 1, by decide, by decide⟩ ⟨2147485648, 1, 1, by decide, by decide⟩
      ∧ calculateAge ⟨2147485648, 1, 1, by decide, by decide⟩ ⟨2000, 1, 1, by decide, by decide⟩
          < 0 := by
  constructor <;> decide

/-- C10 (amended): for every date of birth `dob` and current dates `now1`
not later than `now2` whose years differ from the year of `dob` by more than
-2147483648 and less than 2147483648, `calculateAge` does not decrease from
`now1` to `now2` (also from 31 December to 1 January and across leap years),
and it is non-negative at `now1` when `dob` is not later than `now1`. -/
theorem calculateAge_nonneg_mono (dob now1 now2 : Time) (h12 : Time.le now1 now2)
    (hlo : -2147483648 < now1.year - dob.year) (hhi : now2.year - dob.year < 2147483648) :
    (Time.le dob now1 → 0 ≤ calculateAge now1 dob)
      ∧ calculateAge now1 dob ≤ calculateAge now2 dob := by
  have e1 : ∀ now : Time, -2147483648 < now.year - dob.year →
      now.year - dob.year < 2147483648 →
      calculateAge now dob
        = (if now.YearDay < dob.YearDay then now.year - dob.year - 1 else now.year - dob.year) := by
    intro now hgt hlt
    unfold calculateAge
    apply toInt32_of_fits
    unfold fitsInt32
    simp only [Time.Year]
    split <;> omega
  have y12 : now1.year ≤ now2.year := by
    rcases h12 with h | ⟨h, _⟩ <;> omega
  have d12 : now1.year = now2.year → now1.YearDay ≤ now2.YearDay := by
    intro he
    rcases h12 with h | ⟨_, h⟩
    · omega
    · exact yearDay_le_of_le now1 now2 he h
  rw [e1 now1 hlo (by omega), e1 now2 (by omega) hhi]
  constructor
  · intro h0
    have y01 : dob.year ≤ now1.year := by
      rcases h0 with h | ⟨h, _⟩ <;> omega
    have d01 : dob.year = now1.year → dob.YearDay ≤ now1.YearDay := by
      intro he
      rcases h0 with h | ⟨_, h⟩
      · omega
      · exact yearDay_le_of_le dob now1 he h
    split
    · rename_i hlt
      have : dob.year ≠ now1.year := fun he => by have := d01 he; omega
      omega
    · omega
  · by_cases he : now1.year = now2.year
    · have := d12 he
      split <;> split <;> omega
    · split <;> split <;> omega

theorem calculateAge_nonneg_mono_witness :
    0 ≤ calculateAge ⟨2023, 12, 31, by decide, by decide⟩ ⟨2000, 12, 31, by decide, by decide⟩
      ∧ calculateAge ⟨2023, 12, 31, by decide, by decide⟩ ⟨2000, 12, 31, by decide, by decide⟩
          ≤ calculateAge ⟨2024, 1, 1, by decide, by decide⟩ ⟨2000, 12, 31, by decide, by decide⟩ :=
  have h := calculateAge_nonneg_mono ⟨2000, 12, 31, by decide, by decide⟩
    ⟨2023, 12, 31, by decide, by decide⟩ ⟨2024, 1, 1, by decide, by decide⟩
    (by decide) (by decide) (by decide)
  ⟨h.1 (by decide), h.2⟩

/-! ## Missing records -/

theorem getUser_noRows {σ : Type} (q : Queries σ) (now : Time) (id : Int)
    (body : Except Error Request) (st st1 : σ)
    (h : q.GetUser (toInt32 id) st = (.error ErrNoRows, st1)) :
    (app q now).GetUser ⟨.ok id, body⟩ st
      = (.sent (Response.json 500 (errorBody "sql: no rows in result set")), st1) := by
  simp [app, handler.New, UserHandler.GetUser, service.New, repository.New,
    UserServiceStruct.GetUser, SqlRepo.GetUser, h, ErrNoRows]

theorem toInt32_alias (id : Int) : toInt32 (id + 4294967296) = toInt32 id := by
  unfold toInt32
  omega

/-- C3 (code at the failing input): on a store without record 42 the query
reports `sql.ErrNoRows`; `SqlRepo.GetUser` and `UserServiceStruct.GetUser`
return that error, not the "no record" result, and the handler answers 500
with the message of `sql.ErrNoRows`, not 404. -/
theorem getUser_missing_is_500 :
    (repository.New memQueries).GetUser 42 [] = (.error ErrNoRows, [])
      ∧ (service.New (repository.New memQueries) today).GetUser 42 [] = (.error ErrNoRows, [])
      ∧ (app memQueries today).GetUser ⟨.ok 42, .error ⟨""⟩⟩ []
          = (.sent (Response.json 500 (errorBody "sql: no rows in result set")), []) := by
  refine ⟨rfl, rfl, rfl⟩

/-! ## Validation -/

theorem validate_some_of_bad (req : Request)
    (h : req.Name.length < 3 ∨ Parse req.Dob = none) : ∃ e, Validate.Struct req = some e := by
  unfold Validate.Struct
  have hne : (validateName req.Name).toList ++ (validateDob req.Dob).toList ≠ [] := by
    rcases h with h | h
    · have : ∃ fe, validateName req.Name = some fe := by
        unfold validateName
        split
        · exact ⟨_, rfl⟩
        · exact ⟨_, rfl⟩
      obtain ⟨fe, hfe⟩ := this
      simp [hfe]
    · have : ∃ fe, validateDob req.Dob = some fe := by
        unfold validateDob
        split
        · exact ⟨_, rfl⟩
        · simp [h]
      obtain ⟨fe, hfe⟩ := this
      simp [hfe]
  simp only [hne, if_false]
  exact ⟨_, rfl⟩

theorem parse_of_validate_none (req : Request) (h : Validate.Struct req = none) :
    3 ≤ req.Name.length ∧ ∃ t, Parse req.Dob = some t := by
  constructor
  · by_contra hlt
    obtain ⟨e, he⟩ := validate_some_of_bad req (Or.inl (by omega))
    rw [h] at he
    exact absurd he (by simp)
  · cases hp : Parse req.Dob with
    | some t => exact ⟨t, rfl⟩
    | none =>
      obtain ⟨e, he⟩ := validate_some_of_bad req (Or.inr hp)
      rw [h] at he
      exact absurd he (by simp)

/-- C4 (counterexample): an `UpdateUser` request whose body parses with the
name "Al" (fewer than 3 characters) but whose path identifier `ParamsInt`
rejects is answered 400 with error "Invalid User ID" and no details, not with
error "Validation failed" plus details. -/
theorem updateUser_bad_id_first :
    "Al".length < 3
      ∧ (handler.New countingService Validate.Struct).UpdateUser
            ⟨.error ⟨"failed to convert"⟩, .ok ⟨"Al", "2000-05-15"⟩⟩ 0
          = (.sent (Response.json 400 (errorBody "Invalid User ID")), 0)
      ∧ ¬ ∃ details : String,
          (handler.New countingService Validate.Struct).UpdateUser
              ⟨.error ⟨"failed to convert"⟩, .ok ⟨"Al", "2000-05-15"⟩⟩ 0
            = (.sent (Response.json 400 (errorDetailsBody "Validation failed" details)), 0) := by
  refine ⟨by decide, rfl, ?_⟩
  rintro ⟨details, h⟩
  simp [UserHandler.UpdateUser, handler.New, Response.json, errorBody, errorDetailsBody] at h

/-- C4 (amended): for every request whose body parses to `req` with a name of
fewer than 3 characters (the empty name included), or with a dob that is not
a calendar date written as YYYY-MM-DD (the missing dob included), `CreateUser`
and, when `ParamsInt` accepts the path identifier, `UpdateUser` respond 400
with error "Validation failed" and a details string; when `ParamsInt` rejects
the path identifier, `UpdateUser` responds 400 with error "Invalid User ID".
All of this holds for every service implementation and leaves the state
untouched, so the service is never called. The name "Al" is rejected with 400,
on the `min` tag. -/
theorem validation_rejects (req : Request)
    (hbad : req.Name.length < 3 ∨ ¬ isCalendarDate req.Dob) :
    ∃ details : String,
      (∀ (σ : Type) (svc : UserService σ) (p : Except Error Int) (id : Int) (e : Error) (st : σ),
        (handler.New svc Validate.Struct).CreateUser ⟨p, .ok req⟩ st
            = (.sent (Response.json 400 (errorDetailsBody "Validation failed" details)), st)
          ∧ (handler.New svc Validate.Struct).UpdateUser ⟨.ok id, .ok req⟩ st
            = (.sent (Response.json 400 (errorDetailsBody "Validation failed" details)), st)
          ∧ (handler.New svc Validate.Struct).UpdateUser ⟨.error e, .ok req⟩ st
            = (.sent (Response.json 400 (errorBody "Invalid User ID")), st))
      ∧ (handler.New countingService Validate.Struct).CreateUser
            ⟨.error ⟨""⟩, .ok ⟨"Al", "2000-05-15"⟩⟩ 0
          = (.sent (Response.json 400 (errorDetailsBody "Validation failed"
              "Key: \x27Request.Name\x27 Error:Field validation for \x27Name\x27 failed on the \x27min\x27 tag")),
            0) := by
  have hbad2 : req.Name.length < 3 ∨ Parse req.Dob = none :=
    hbad.imp id (not_parse_of_not_calendarDate req.Dob)
  obtain ⟨e, he⟩ := validate_some_of_bad req hbad2
  refine ⟨e.msg, ?_, ?_⟩
  · intro σ svc p id e st
    simp [UserHandler.CreateUser, UserHandler.UpdateUser, handler.New, he]
  · rfl

theorem validation_rejects_witness :
    ∃ details : String,
      (handler.New countingService Validate.Struct).UpdateUser
          ⟨.ok 1, .ok ⟨"Bob", "2023-02-29"⟩⟩ 0
        = (.sent (Response.json 400 (errorDetailsBody "Validation failed" details)), 0) := by
  have hnot : ¬ isCalendarDate "2023-02-29" := by
    rw [isCalendarDate_iff]
    decide
  obtain ⟨details, h, _⟩ := validation_rejects ⟨"Bob", "2023-02-29"⟩ (Or.inr hnot)
  exact ⟨details, (h Nat countingService (.ok 1) 1 ⟨""⟩ 0).2.1⟩

/-! ## Creation -/

/-- C5: for every `CreateUser` request that passes validation, `time.Parse`
succeeds on the dob string with a date `t` that `Format` writes back as that
same string; whatever the service, it is called with the name and `t` (the
zero-value fallback is not taken); and when the store, for the name and date
the handler hands over, returns the record with these fields and identifier
`i`, the service's DTO has `Age = 0` and the response is 201 with `id` `i`,
the same name, the same dob string and no `age` member. -/
theorem create_roundtrip {σ : Type} (q : Queries σ) (now : Time) (p : Except Error Int)
    (req : Request) (st st1 : σ) (i : Int)
    (hvalid : Validate.Struct req = none)
    (hstore : q.CreateUser ⟨req.Name, (Parse req.Dob).getD Time.zero⟩ st
      = (.ok ⟨i, req.Name, (Parse req.Dob).getD Time.zero⟩, st1)) :
    ∃ t : Time, Parse req.Dob = some t ∧ t.Format = req.Dob
      ∧ (∀ (τ : Type) (svc : UserService τ) (s0 : τ),
          (handler.New svc Validate.Struct).CreateUser ⟨p, .ok req⟩ s0
            = (match svc.CreateUser ⟨req.Name, t⟩ s0 with
               | (.error err, s1) => (.sent (Response.json 500 (errorBody err.msg)), s1)
               | (.ok none, s1) => (.nilDeref, s1)
               | (.ok (some res), s1) => (.sent (Response.json 201 res.toJson), s1)))
      ∧ (service.New (repository.New q) now).CreateUser ⟨req.Name, t⟩ st
          = (.ok (some ⟨i, req.Name, req.Dob, 0⟩), st1)
      ∧ (app q now).CreateUser ⟨p, .ok req⟩ st
          = (.sent (Response.json 201 (Json.obj [("id", Json.num i), ("name", Json.str req.Name),
              ("dob", Json.str req.Dob)])), st1) := by
  obtain ⟨_, t, ht⟩ := parse_of_validate_none req hvalid
  have hf := (format_of_parse req.Dob t ht).1
  rw [ht, Option.getD_some] at hstore
  refine ⟨t, ht, hf, ?_, ?_, ?_⟩
  · intro τ svc s0
    simp [UserHandler.CreateUser, handler.New, hvalid, ht]
  · simp [service.New, repository.New, UserServiceStruct.CreateUser, SqlRepo.CreateUser, hstore, hf]
  · simp [app, UserHandler.CreateUser, handler.New, hvalid, ht, service.New, repository.New,
      UserServiceStruct.CreateUser, SqlRepo.CreateUser, hstore, hf, UserResponse.toJson]

theorem create_roundtrip_witness :
    ∃ t : Time, Parse "2000-05-15" = some t ∧ t.Format = "2000-05-15"
      ∧ (app memQueries today).CreateUser ⟨.error ⟨""⟩, .ok ⟨"Alice", "2000-05-15"⟩⟩ []
          = (.sent (Response.json 201 (Json.obj [("id", Json.num 1), ("name", Json.str "Alice"),
              ("dob", Json.str "2000-05-15")])), [alice]) := by
  obtain ⟨t, h1, h2, _, _, h5⟩ :=
    create_roundtrip memQueries today (.error ⟨""⟩) ⟨"Alice", "2000-05-15"⟩ [] [alice] 1
      (by decide) rfl
  exact ⟨t, h1, h2, h5⟩

/-! ## Listing -/

theorem foldl_append_slice {α β : Type} (f : α → β) (l : List α) (acc : Slice β) :
    l.foldl (fun r u => r.append (f u)) acc
      = if l.isEmpty = true then acc else Slice.mk (acc.toList ++ l.map f) := by
  induction l generalizing acc with
  | nil => simp
  | cons x xs ih =>
    rw [List.foldl_cons, ih]
    cases xs with
    | nil => simp [Slice.append]
    | cons y ys => simp [Slice.append, Slice.toList]

theorem service_listUsers_eq {σ : Type} (r : UserRepo σ) (now : Time) (st st1 : σ)
    (users : Slice User) (h : r.ListUsers st = (.ok users, st1)) :
    (service.New r now).ListUsers st
      = (.ok (if users.toList.isEmpty = true then Slice.nil
              else Slice.mk (users.toList.map (fun u => some (toResponse now u)))), st1) := by
  have hf := foldl_append_slice (fun u => some (toResponse now u)) users.toList Slice.nil
  simp only [service.New, UserServiceStruct.ListUsers, h]
  exact congrArg (fun x => (Except.ok x, st1)) hf

/-- C6 (counterexample): on the empty in-memory store the list operation
succeeds with zero records and `UserServiceStruct.ListUsers` returns the nil
slice, which is the absent value and not a non-nil empty sequence. -/
theorem service_listUsers_nil :
    memQueries.ListUsers [] = (.ok Slice.nil, [])
      ∧ (service.New (repository.New memQueries) today).ListUsers [] = (.ok Slice.nil, [])
      ∧ (Slice.nil : Slice (Ptr UserResponse)) ≠ Slice.mk []
      ∧ encodeSlice Slice.nil = Json.null := by
  refine ⟨rfl, rfl, by simp, rfl⟩

/-- C6 (amended): whenever the store's list operation succeeds with zero
records (a nil or an empty slice), `UserServiceStruct.ListUsers` returns no
error and the nil slice, whose length is zero. -/
theorem service_listUsers_empty {σ : Type} (r : UserRepo σ) (now : Time) (st st1 : σ)
    (users : Slice User) (h : r.ListUsers st = (.ok users, st1)) (h0 : users.len = 0) :
    (service.New r now).ListUsers st = (.ok Slice.nil, st1)
      ∧ (Slice.nil : Slice (Ptr UserResponse)).len = 0 := by
  have hl : users.toList = [] := List.length_eq_zero.mp h0
  rw [service_listUsers_eq r now st st1 users h, hl]
  exact ⟨rfl, rfl⟩

theorem service_listUsers_empty_witness :
    (service.New
        { repository.New memQueries with ListUsers := fun st => (.ok (Slice.mk []), st) }
        today).ListUsers []
      = (.ok Slice.nil, []) :=
  (service_listUsers_empty _ today [] [] (Slice.mk []) rfl rfl).1

/-- C7: whenever the service's `ListUsers` returns no error and a slice
`users`, the handler responds 200 with the JSON array of the encodings of the
elements of `users`, in order, with exactly `len(users)` elements; for a nil
or an empty slice that is the empty array `[]`, not `null`. With the
service of this program over a store that lists the records `us`, the array
holds the `n = len(us)` responses of these records in the store's order. -/
theorem handler_listUsers {σ τ : Type} (svc : UserService σ) (v : Request → Option Error)
    (q : Queries τ) (now : Time) (st st1 : σ) (sq sq1 : τ)
    (users : Slice (Ptr UserResponse)) (us : Slice User)
    (hsvc : svc.ListUsers st = (.ok users, st1))
    (hq : q.ListUsers sq = (.ok us, sq1)) :
    (handler.New svc v).ListUsers st
        = (.sent (Response.json 200 (Json.arr (users.toList.map encodePtr))), st1)
      ∧ (users.toList.map encodePtr).length = users.len
      ∧ (users.len = 0 →
          (handler.New svc v).ListUsers st = (.sent (Response.json 200 (Json.arr [])), st1))
      ∧ (app q now).ListUsers sq
          = (.sent (Response.json 200
              (Json.arr (us.toList.map (fun u => (toResponse now u).toJson)))), sq1)
      ∧ (us.toList.map (fun u => (toResponse now u).toJson)).length = us.len := by
  have hgen : (handler.New svc v).ListUsers st
      = (.sent (Response.json 200 (Json.arr (users.toList.map encodePtr))), st1) := by
    simp only [UserHandler.ListUsers, handler.New, hsvc]
    cases users with
    | nil => simp [Slice.isNil, Slice.toList]
    | mk l => simp [Slice.isNil, Slice.toList, encodeSlice]
  refine ⟨hgen, by simp [Slice.len], ?_, ?_, by simp [Slice.len]⟩
  · intro h0
    have hl : users.toList = [] := List.length_eq_zero.mp h0
    rw [hgen, hl]
    rfl
  · have hr : (repository.New q).ListUsers sq = (.ok us, sq1) := by
      simp [repository.New, SqlRepo.ListUsers, hq]
    have hs := service_listUsers_eq (repository.New q) now sq sq1 us hr
    simp only [app, UserHandler.ListUsers, handler.New, hs]
    cases hl : us.toList with
    | nil => simp [Slice.isNil]
    | cons x xs => simp [Slice.isNil, encodeSlice, encodePtr, Function.comp_def]

theorem handler_listUsers_witness :
    (handler.New countingService Validate.Struct).ListUsers 0
        = (.sent (Response.json 200 (Json.arr [])), 1)
      ∧ (app memQueries today).ListUsers [alice]
        = (.sent (Response.json 200 (Json.arr [Json.obj [("id", Json.num 1),
            ("name", Json.str "Alice"), ("dob", Json.str "2000-05-15"),
            ("age", Json.num 24)]])), [alice]) := by
  have h := handler_listUsers countingService Validate.Struct memQueries today
    0 1 [alice] [alice] Slice.nil (Slice.mk [alice]) rfl rfl
  exact ⟨h.1, h.2.2.2.1⟩

/-! ## Store errors and success statuses -/

/-- C8: in the program as wired, for each of the five operations: if the
store call returns an error `e`, the service returns exactly `e` and no
response, and the handler (for a request that reached the store: accepted
identifier, parsed and valid body) responds 500 with body `error: e.msg`; if
the store call returns no error, the handler responds 201 for Create, 200 for
Get, List and Update, and 204 without a body for Delete. -/
theorem store_errors_and_statuses {σ : Type} (q : Queries σ) (now : Time) (id : Int)
    (req : Request) (st : σ) (hvalid : Validate.Struct req = none) :
    -- Create
    (∀ (sreq : CreateUserRequest) e st1, q.CreateUser ⟨sreq.Name, sreq.Dob⟩ st = (.error e, st1) →
        (service.New (repository.New q) now).CreateUser sreq st = (.error e, st1))
    ∧ (∀ e st1,
        q.CreateUser ⟨req.Name, (Parse req.Dob).getD Time.zero⟩ st = (.error e, st1) →
        (app q now).CreateUser ⟨.ok id, .ok req⟩ st
          = (.sent (Response.json 500 (errorBody e.msg)), st1))
    ∧ (∀ u st1,
        q.CreateUser ⟨req.Name, (Parse req.Dob).getD Time.zero⟩ st = (.ok u, st1) →
        (app q now).CreateUser ⟨.ok id, .ok req⟩ st
          = (.sent (Response.json 201 (UserResponse.toJson ⟨u.ID, u.Name, u.Dob.Format, 0⟩)),
              st1))
    -- Get
    ∧ (∀ i e st1, q.GetUser i st = (.error e, st1) →
        (service.New (repository.New q) now).GetUser i st = (.error e, st1))
    ∧ (∀ e st1, q.GetUser (toInt32 id) st = (.error e, st1) →
        (app q now).GetUser ⟨.ok id, .ok req⟩ st
          = (.sent (Response.json 500 (errorBody e.msg)), st1))
    ∧ (∀ u st1, q.GetUser (toInt32 id) st = (.ok u, st1) →
        (app q now).GetUser ⟨.ok id, .ok req⟩ st
          = (.sent (Response.json 200 (toResponse now u).toJson), st1))
    -- List
    ∧ (∀ e st1, q.ListUsers st = (.error e, st1) →
        (service.New (repository.New q) now).ListUsers st = (.error e, st1)
          ∧ (app q now).ListUsers st = (.sent (Response.json 500 (errorBody e.msg)), st1))
    ∧ (∀ us st1, q.ListUsers st = (.ok us, st1) →
        (app q now).ListUsers st
          = (.sent (Response.json 200
              (Json.arr (us.toList.map (fun u => (toResponse now u).toJson)))), st1))
    -- Update
    ∧ (∀ (sreq : UpdateUserRequest) e st1,
        q.UpdateUser ⟨sreq.ID, sreq.Name, sreq.Dob⟩ st = (.error e, st1) →
        (service.New (repository.New q) now).UpdateUser sreq st = (.error e, st1))
    ∧ (∀ e st1,
        q.UpdateUser ⟨toInt32 id, req.Name, (Parse req.Dob).getD Time.zero⟩ st = (.error e, st1) →
        (app q now).UpdateUser ⟨.ok id, .ok req⟩ st
          = (.sent (Response.json 500 (errorBody e.msg)), st1))
    ∧ (∀ u st1,
        q.UpdateUser ⟨toInt32 id, req.Name, (Parse req.Dob).getD Time.zero⟩ st = (.ok u, st1) →
        (app q now).UpdateUser ⟨.ok id, .ok req⟩ st
          = (.sent (Response.json 200 (toResponse now u).toJson), st1))
    -- Delete
    ∧ (∀ i e st1, q.DeleteUser i st = (some e, st1) →
        (service.New (repository.New q) now).DeleteUser i st = (some e, st1))
    ∧ (∀ e st1, q.DeleteUser (toInt32 id) st = (some e, st1) →
        (app q now).DeleteUser ⟨.ok id, .ok req⟩ st
          = (.sent (Response.json 500 (errorBody e.msg)), st1))
    ∧ (∀ st1, q.DeleteUser (toInt32 id) st = (none, st1) →
        (app q now).DeleteUser ⟨.ok id, .ok req⟩ st = (.sent ⟨204, none⟩, st1)) := by
  refine ⟨?_, ?_, ?_, ?_, ?_, ?_, ?_, ?_, ?_, ?_, ?_, ?_, ?_, ?_⟩
  · intro sreq e st1 h
    simp [service.New, repository.New, UserServiceStruct.CreateUser, SqlRepo.CreateUser, h]
  · intro e st1 h
    simp [app, handler.New, UserHandler.CreateUser, hvalid, service.New, repository.New,
      UserServiceStruct.CreateUser, SqlRepo.CreateUser, h]
  · intro u st1 h
    simp [app, handler.New, UserHandler.CreateUser, hvalid, service.New, repository.New,
      UserServiceStruct.CreateUser, SqlRepo.CreateUser, h]
  · intro i e st1 h
    simp [service.New, repository.New, UserServiceStruct.GetUser, SqlRepo.GetUser, h]
  · intro e st1 h
    simp [app, handler.New, UserHandler.GetUser, service.New, repository.New,
      UserServiceStruct.GetUser, SqlRepo.GetUser, h]
  · intro u st1 h
    simp [app, handler.New, UserHandler.GetUser, service.New, repository.New,
      UserServiceStruct.GetUser, SqlRepo.GetUser, h, toResponse]
  · intro e st1 h
    simp [app, handler.New, UserHandler.ListUsers, service.New, repository.New,
      UserServiceStruct.ListUsers, SqlRepo.ListUsers, h]
  · intro us st1 h
    have hr : (repository.New q).ListUsers st = (.ok us, st1) := by
      simp [repository.New, SqlRepo.ListUsers, h]
    have hs := service_listUsers_eq (repository.New q) now st st1 us hr
    simp only [app, UserHandler.ListUsers, handler.New, hs]
    cases hl : us.toList with
    | nil => simp [Slice.isNil]
    | cons x xs => simp [Slice.isNil, encodeSlice, encodePtr, Function.comp_def]
  · intro sreq e st1 h
    simp [service.New, repository.New, UserServiceStruct.UpdateUser, SqlRepo.UpdateUser, h]
  · intro e st1 h
    simp [app, handler.New, UserHandler.UpdateUser, hvalid, service.New, repository.New,
      UserServiceStruct.UpdateUser, SqlRepo.UpdateUser, h]
  · intro u st1 h
    simp [app, handler.New, UserHandler.UpdateUser, hvalid, service.New, repository.New,
      UserServiceStruct.UpdateUser, SqlRepo.UpdateUser, h, toResponse, encodePtr]
  · intro i e st1 h
    simp [service.New, repository.New, UserServiceStruct.DeleteUser, SqlRepo.DeleteUser, h]
  · intro e st1 h
    simp [app, handler.New, UserHandler.DeleteUser, service.New, repository.New,
      UserServiceStruct.DeleteUser, SqlRepo.DeleteUser, h]
  · intro st1 h
    simp [app, handler.New, UserHandler.DeleteUser, service.New, repository.New,
      UserServiceStruct.DeleteUser, SqlRepo.DeleteUser, h, Response.sendStatus]

theorem store_errors_and_statuses_witness :
    (app (failingQueries ⟨"connection refused"⟩) today).GetUser
        ⟨.ok 1, .ok ⟨"Alice", "2000-05-15"⟩⟩ ()
      = (.sent (Response.json 500 (errorBody "connection refused")), ()) :=
  (store_errors_and_statuses (failingQueries ⟨"connection refused"⟩) today 1
    ⟨"Alice", "2000-05-15"⟩ () (by decide)).2.2.2.2.1 ⟨"connection refused"⟩ () rfl

/-! ## Path identifiers -/

/-- C9 (code at the failing input): the path identifier 4294967297 is a Go
`int` that `ParamsInt` accepts, and `int32` turns it into 1. On a store that
holds only record 1, `GetUser` for 4294967297 answers 200 with record 1,
`UpdateUser` overwrites record 1, and `DeleteUser` removes record 1. -/
theorem paramsInt_truncated :
    toInt32 4294967297 = 1
      ∧ (app memQueries today).GetUser ⟨.ok 4294967297, .error ⟨""⟩⟩ [alice]
          = (.sent (Response.json 200 (Json.obj [("id", Json.num 1), ("name", Json.str "Alice"),
              ("dob", Json.str "2000-05-15"), ("age", Json.num 24)])), [alice])
      ∧ ((app memQueries today).UpdateUser
            ⟨.ok 4294967297, .ok ⟨"Mallory", "1990-01-01"⟩⟩ [alice]).2
          = [⟨1, "Mallory", ⟨1990, 1, 1, by decide, by decide⟩⟩]
      ∧ (app memQueries today).DeleteUser ⟨.ok 4294967297, .error ⟨""⟩⟩ [alice]
          = (.sent ⟨204, none⟩, []) := by
  refine ⟨by decide, rfl, by decide, rfl⟩


end AgeApi
